import Mathlib

/-!
Shallow embedding of the wav2mono core (`src/lib.rs`) and verification of the
frozen claims about it.

Modelling conventions:
* `f32`/`f64` arithmetic of the source is idealized as exact rational
  arithmetic (`ℚ`).  In particular `10f32.powf(-60.0/20.0)` is the exact value
  `10^(-3) = 1/1000`, and the widening cast `(l - r) as f64` is the identity.
* A decoded sample stream is a `List`; a decode failure on an individual
  sample (`hound::Result` being `Err`) is modelled as `none`.
* One asset is decoded either as an `i32` stream (all integer formats) or as an
  `f32` stream (float format); a `WavAsset` carries both decoded views and the
  branch taken by the code selects the matching one.
* Filesystem effects of `process_wav_file` are modelled as an `FsResult`
  describing, for the one asset being processed, which files exist afterwards
  and with what content.  `hound::WavWriter::create` materializes the output
  file; nothing in `process_wav_file` ever removes it again, so on a failed
  finalize the model keeps an `unfinalized` entry at `mono/<name>`.
-/

namespace Wav2Mono

/-- `hound::SampleFormat` (`Int` = signed PCM, `Float` = IEEE float). -/
inductive SampleFormat
  | Int
  | Float
deriving DecidableEq

/-- The verdict enum `StereoType` of `lib.rs`. -/
inductive StereoType
  | DualMono
  | TrueStereo
deriving DecidableEq

/-- `hound::WavSpec`, restricted to the fields the program reads. -/
structure WavSpec where
  channels : ℕ
  sample_rate : ℕ
  bits_per_sample : ℕ
  sample_format : SampleFormat
deriving DecidableEq

/-- `let silence_threshold = 10f32.powf(-60.0 / 20.0)` — exactly `1/1000`. -/
def silence_threshold : ℚ := 1 / 1000

/-- `let mono_diff_threshold = 10f32.powf(-60.0 / 20.0)` — exactly `1/1000`. -/
def mono_diff_threshold : ℚ := 1 / 1000

/-- The closure `to_f32` of `is_dual_mono`: normalize one decoded `i32` sample
(`none` = decode error, `sample.unwrap_or(0)`) according to the declared
format and bit depth.  Unknown combinations fall through to `0.0`. -/
def to_f32 (format : SampleFormat) (bits : ℕ) (s : Option ℤ) : ℚ :=
  let v : ℚ := (s.getD 0 : ℤ)
  match format, bits with
  | .Int, 16 => v / 32767
  | .Int, 24 => v / 8388607
  | .Int, 32 => v / 2147483647
  | _, _ => 0

/-- The float branch `reader.samples::<f32>().map(|s| s.unwrap_or(0.0))`:
a float sample is passed through unchanged, a decode error becomes `0.0`. -/
def float_to_f32 (s : Option ℚ) : ℚ := s.getD 0

/-- The mutable locals of the classification loop of `is_dual_mono`. -/
structure AnalysisState where
  side_energy_sum : ℚ
  analyzed_count : ℕ
  is_started : Bool
  silence_samples : ℕ
deriving DecidableEq

/-- Initial values of the loop locals (`0.0f64`, `0usize`, `false`, `0usize`). -/
def initState : AnalysisState := ⟨0, 0, false, 0⟩

/-- A pair that the pre-roll skip regards as silent:
`!(l.abs() > silence_threshold || r.abs() > silence_threshold)`. -/
def silentPair (p : ℚ × ℚ) : Bool :=
  decide (|p.1| ≤ silence_threshold ∧ |p.2| ≤ silence_threshold)

/-- The `while let (Some(l), Some(r)) = …` loop body of `is_dual_mono`,
already applied to the list of L/R pairs.  `maxN` is `max_analyze_samples`.
The `continue` branch only bumps `silence_samples`; otherwise the pair is
accumulated and the loop breaks once `analyzed_count` reaches `maxN`. -/
def analyzeLoop (maxN : ℕ) : List (ℚ × ℚ) → AnalysisState → AnalysisState
  | [], st => st
  | (l, r) :: rest, st =>
    if st.is_started = false ∧ |l| ≤ silence_threshold ∧ |r| ≤ silence_threshold then
      analyzeLoop maxN rest { st with silence_samples := st.silence_samples + 1 }
    else
      let st1 : AnalysisState :=
        if st.is_started then st
        else { st with silence_samples := st.silence_samples + 1, is_started := true }
      let side : ℚ := l - r
      let st2 : AnalysisState :=
        { st1 with
          side_energy_sum := st1.side_energy_sum + side * side
          analyzed_count := st1.analyzed_count + 1 }
      if maxN ≤ st2.analyzed_count then st2 else analyzeLoop maxN rest st2

/-- The full loop run of `is_dual_mono`:
`max_analyze_samples = 10 * sample_rate`, starting from the initial locals. -/
def runAnalysis (sample_rate : ℕ) (pairs : List (ℚ × ℚ)) : AnalysisState :=
  analyzeLoop (10 * sample_rate) pairs initState

/-- The verdict computation after the loop.  The source compares
`side_rms = sqrt(side_energy_sum / analyzed_count)` against
`mono_diff_threshold`; since both sides are nonnegative this is equivalent to
comparing `side_energy_sum / analyzed_count` against `mono_diff_threshold ^ 2`,
which keeps the definition executable (`Real.sqrt` is not). -/
def classifyPairs (sample_rate : ℕ) (pairs : List (ℚ × ℚ)) : StereoType :=
  let st := runAnalysis sample_rate pairs
  if st.analyzed_count = 0 then .DualMono
  else if st.side_energy_sum / (st.analyzed_count : ℚ) < mono_diff_threshold ^ 2 then .DualMono
  else .TrueStereo

/-- Pairing of the flat interleaved sample stream performed by
`while let (Some(l), Some(r)) = (samples.next(), samples.next())`:
a trailing unpaired sample is consumed by the first `next()` but dropped. -/
def pairUp : List ℚ → List (ℚ × ℚ)
  | l :: r :: rest => (l, r) :: pairUp rest
  | _ => []

/-- Classification of a flat normalized sample stream. -/
def classifySamples (sample_rate : ℕ) (xs : List ℚ) : StereoType :=
  classifyPairs sample_rate (pairUp xs)

/-- `is_dual_mono` of `lib.rs`.  `ints` is the asset decoded as an `i32`
stream, `floats` the same asset decoded as an `f32` stream; the format
dispatch (`match (format, bits)`) picks which view is consulted. -/
def is_dual_mono (spec : WavSpec) (ints : List (Option ℤ)) (floats : List (Option ℚ)) :
    Except String StereoType :=
  if spec.channels ≠ 2 then .ok .DualMono
  else
    match spec.sample_format, spec.bits_per_sample with
    | .Float, 32 => .ok (classifySamples spec.sample_rate (floats.map float_to_f32))
    | .Int, _ => .ok (classifySamples spec.sample_rate
        (ints.map (to_f32 spec.sample_format spec.bits_per_sample)))
    | _, _ => .error "Unsupported sample format for dual-mono check"

/-- `extract_left_channel` of `lib.rs`, over the decoded sample stream.
Each iteration propagates a decode error on the channel-0 sample (`l_res?`),
writes the sample, then skips up to `channels - 1` further samples, stopping
early when the stream ends (`if samples.next().is_none() break`); errors on
the skipped samples are not inspected.  The result is the list of samples
written before returning, paired with `true` when no channel-0 sample failed
to decode (the stream merely ending is not an error). -/
def extract_left_channel {α : Type} (channels : ℕ) : List (Option α) → List α × Bool
  | [] => ([], true)
  | none :: _ => ([], false)
  | some v :: rest =>
    let out := extract_left_channel channels (rest.drop (channels - 1))
    (v :: out.1, out.2)
termination_by xs => xs.length
decreasing_by
  simp only [List.length_drop, List.length_cons]
  omega

/-- Content of a 1-channel output stream, in the encoding the extraction
branch of `process_wav_file` read it with (`i8`/`i16`/`i32` all modelled as
the decoded integer values; `f32` as rationals). -/
inductive MonoData
  | ints (xs : List ℤ)
  | floats (xs : List ℚ)
deriving DecidableEq

/-- What sits at `mono/<file_name>` after processing: the verbatim copy made
by the 1-channel branch, a finalized extracted container, or the remains of
an extraction whose finalize never succeeded. -/
inductive MonoContent
  | copyOfOriginal
  | finalized (spec : WavSpec) (data : MonoData)
  | unfinalized (spec : WavSpec) (data : MonoData)
deriving DecidableEq

/-- Filesystem outcome of `process_wav_file` for one asset: whether the input
file is still present unmodified, and which of the three output paths
(`mono/`, `stereo/`, `multichannel/` joined with the file name) now hold a
file.  `stereo_out`/`multi_out` hold a verbatim copy of the original. -/
structure FsResult where
  original_intact : Bool
  mono_out : Option MonoContent
  stereo_out : Bool
  multi_out : Bool
deriving DecidableEq

/-- Environment faults injected at the two fallible output operations:
`WavWriter::create` and `writer.finalize()`. -/
structure IoEnv where
  writer_create_fails : Bool
  finalize_fails : Bool
deriving DecidableEq

/-- One input asset: its header spec plus the two decoded views of its data
chunk (as an integer stream and as a float stream). -/
structure WavAsset where
  spec : WavSpec
  ints : List (Option ℤ)
  floats : List (Option ℚ)
deriving DecidableEq

/-- Filesystem state when `process_wav_file` returns without having created
or removed anything. -/
def untouchedFs : FsResult := ⟨true, none, false, false⟩

/-- The extraction dispatch `match (spec.sample_format, spec.bits_per_sample)`
of the DualMono branch: which decoded view is read and re-written (arms
`i8`/`i16`/`i24|i32`/`f32`), or `none` for the `unreachable!()` arm. -/
def extractView (a : WavAsset) : Option (MonoData × Bool) :=
  match a.spec.sample_format, a.spec.bits_per_sample with
  | .Int, 8 | .Int, 16 | .Int, 24 | .Int, 32 =>
    let r := extract_left_channel a.spec.channels a.ints
    some (.ints r.1, r.2)
  | .Float, 32 =>
    let r := extract_left_channel a.spec.channels a.floats
    some (.floats r.1, r.2)
  | _, _ => none

/-- `process_wav_file` of `lib.rs`.  Path handling, directory creation and the
Japanese outcome strings are abstracted (messages are short English
descriptions); the branch structure, the classification call, the spec rewrite
`mono_spec.channels = 1`, the extraction, and every copy/remove of the asset
are modelled.  Note the DualMono branch never removes the input file, and no
branch removes the output file created by `WavWriter::create` when a later
step fails. -/
def process_wav_file (env : IoEnv) (a : WavAsset) : Except String String × FsResult :=
  match a.spec.channels with
  | 1 => (.ok "1ch: copied to mono", ⟨false, some .copyOfOriginal, false, false⟩)
  | 2 =>
    match is_dual_mono a.spec a.ints a.floats with
    | .error e => (.error e, untouchedFs)
    | .ok .TrueStereo => (.ok "true stereo: copied to stereo", ⟨false, none, true, false⟩)
    | .ok .DualMono =>
      let mono_spec : WavSpec := { a.spec with channels := 1 }
      if env.writer_create_fails then (.error "writer create failed", untouchedFs)
      else
        match extractView a with
        | none => (.error "unreachable: unsupported encoding at extraction", untouchedFs)
        | some (d, extracted_ok) =>
          if extracted_ok = false then
            (.error "sample decode failed",
              ⟨true, some (.unfinalized mono_spec d), false, false⟩)
          else if env.finalize_fails then
            (.error "finalize failed",
              ⟨true, some (.unfinalized mono_spec d), false, false⟩)
          else
            (.ok "dual mono: extracted left channel to mono",
              ⟨true, some (.finalized mono_spec d), false, false⟩)
  | _ => (.ok "multichannel: copied to multichannel", ⟨false, none, false, true⟩)

/-- Total side energy of a list of L/R pairs: the sum of `(L - R)²`. -/
def energyOf (pairs : List (ℚ × ℚ)) : ℚ :=
  (pairs.map (fun p => (p.1 - p.2) * (p.1 - p.2))).sum

/-- A concrete dual-mono 16-bit stereo asset used by several witnesses:
two channels, both samples `5` (quiet enough to sit below the silence
threshold, so the whole stream is pre-roll silence and the verdict is
DualMono). -/
def asset16 : WavAsset := ⟨⟨2, 1, 16, .Int⟩, [some 5, some 5], []⟩

end Wav2Mono

namespace Wav2Mono

example : classifySamples 1 ([] : List ℚ) = .DualMono := by decide
example : classifySamples 1 [(1 : ℚ), 1, 1] = .DualMono := by
  norm_num [classifySamples, classifyPairs, runAnalysis, analyzeLoop, pairUp, initState,
    silence_threshold, mono_diff_threshold, abs_le]
example : classifySamples 1 [(1 : ℚ), -1] = .TrueStereo := by
  norm_num [classifySamples, classifyPairs, runAnalysis, analyzeLoop, pairUp, initState,
    silence_threshold, mono_diff_threshold, abs_le]
example : is_dual_mono ⟨2, 48000, 8, .Int⟩ [some 100, some (-100)] [] = .ok .DualMono := by
  norm_num [is_dual_mono, to_f32, classifySamples, classifyPairs, runAnalysis, analyzeLoop,
    pairUp, initState, silence_threshold, mono_diff_threshold, abs_le]
example : is_dual_mono ⟨2, 48000, 16, .Float⟩ [] [] =
    .error "Unsupported sample format for dual-mono check" := by
  norm_num [is_dual_mono]
example : extract_left_channel 2 ([some 10, some 20, some 30, some 40, some 50] : List (Option ℤ)) =
    ([10, 30, 50], true) := by simp [extract_left_channel]
example : extract_left_channel 2 ([some 10, none, some 30] : List (Option ℤ)) =
    ([10, 30], true) := by simp [extract_left_channel]
example : extract_left_channel 2 ([none, some 20] : List (Option ℤ)) = ([], false) := by simp [extract_left_channel]
example : process_wav_file ⟨false, false⟩ asset16 =
    (.ok "dual mono: extracted left channel to mono",
      ⟨true, some (.finalized ⟨1, 1, 16, .Int⟩ (.ints [5])), false, false⟩) := by
  norm_num [process_wav_file, asset16, is_dual_mono, to_f32, classifySamples, classifyPairs,
    runAnalysis, analyzeLoop, pairUp, initState, silence_threshold, mono_diff_threshold,
    abs_le, extractView, extract_left_channel, untouchedFs]
example : process_wav_file ⟨false, true⟩ asset16 =
    (.error "finalize failed",
      ⟨true, some (.unfinalized ⟨1, 1, 16, .Int⟩ (.ints [5])), false, false⟩) := by
  norm_num [process_wav_file, asset16, is_dual_mono, to_f32, classifySamples, classifyPairs,
    runAnalysis, analyzeLoop, pairUp, initState, silence_threshold, mono_diff_threshold,
    abs_le, extractView, extract_left_channel, untouchedFs]

end Wav2Mono

namespace Wav2Mono

/-- Unfolding of one silent pre-roll step: while `is_started` is still false
and both samples sit below the silence threshold, the loop only counts the
pair into `silence_samples` and continues. -/
theorem analyzeLoop_silent_cons (maxN : ℕ) (l r : ℚ) (rest : List (ℚ × ℚ))
    (st : AnalysisState) (hs : st.is_started = false)
    (hl : |l| ≤ silence_threshold) (hr : |r| ≤ silence_threshold) :
    analyzeLoop maxN ((l, r) :: rest) st =
      analyzeLoop maxN rest { st with silence_samples := st.silence_samples + 1 } := by
  simp [analyzeLoop, hs, hl, hr]

/-- Once the loop has started, it accumulates the side energy of the next
`maxN - analyzed_count` pairs (or all remaining pairs, whichever run ends
first) and never consults the silence threshold again. -/
theorem analyzeLoop_started (maxN : ℕ) (rest : List (ℚ × ℚ)) (st : AnalysisState)
    (hs : st.is_started = true) (hlt : st.analyzed_count < maxN) :
    analyzeLoop maxN rest st =
      { st with
        side_energy_sum := st.side_energy_sum + energyOf (rest.take (maxN - st.analyzed_count))
        analyzed_count := st.analyzed_count + min rest.length (maxN - st.analyzed_count) } := by
  induction rest generalizing st with
  | nil => simp [analyzeLoop, energyOf]
  | cons p rest ih =>
    obtain ⟨l, r⟩ := p
    obtain ⟨sum0, cnt0, strt, sil⟩ := st
    simp only at hs hlt
    subst hs
    rw [analyzeLoop]
    simp only [Bool.true_eq_false, false_and, if_false, if_true]
    by_cases hstop : maxN ≤ cnt0 + 1
    · have hmax : maxN = cnt0 + 1 := by omega
      subst hmax
      rw [if_pos (le_refl _)]
      simp [energyOf, AnalysisState.mk.injEq]
    · rw [if_neg hstop]
      rw [ih _ rfl (by simp; omega)]
      have hk : maxN - cnt0 = (maxN - (cnt0 + 1)) + 1 := by omega
      simp only [AnalysisState.mk.injEq]
      rw [hk, List.take_succ_cons]
      simp [energyOf]
      constructor
      · ring
      · omega

/-- Full characterization of the loop from the initial (not yet started)
state: writing `d` for the input with its leading silent run removed, the
loop analyzes exactly the first `maxN` pairs of `d` — the first
above-threshold pair included, later silent pairs not skipped — and
accumulates exactly their side energy. -/
theorem analyzeLoop_fresh (maxN : ℕ) (pairs : List (ℚ × ℚ)) (st : AnalysisState)
    (hs : st.is_started = false) (hc : st.analyzed_count = 0)
    (he : st.side_energy_sum = 0) (hm : 1 ≤ maxN) :
    (analyzeLoop maxN pairs st).analyzed_count
        = min (pairs.dropWhile silentPair).length maxN ∧
      (analyzeLoop maxN pairs st).side_energy_sum
        = energyOf ((pairs.dropWhile silentPair).take maxN) := by
  induction pairs generalizing st with
  | nil => simp [analyzeLoop, hc, he, energyOf]
  | cons p rest ih =>
    obtain ⟨l, r⟩ := p
    by_cases hsil : silentPair (l, r) = true
    · have hl : |l| ≤ silence_threshold := by
        have := of_decide_eq_true hsil
        exact this.1
      have hr : |r| ≤ silence_threshold := by
        have := of_decide_eq_true hsil
        exact this.2
      rw [List.dropWhile_cons_of_pos hsil, analyzeLoop_silent_cons maxN l r rest st hs hl hr]
      exact ih _ hs hc he
    · rw [List.dropWhile_cons_of_neg (by simpa using hsil)]
      obtain ⟨sum0, cnt0, strt, sil⟩ := st
      simp only at hs hc he
      subst hs; subst hc; subst he
      have hcond : ¬ ((false : Bool) = false ∧ |l| ≤ silence_threshold ∧
          |r| ≤ silence_threshold) := by
        intro h
        exact hsil (by simp [silentPair]; exact h.2)
      rw [analyzeLoop]
      rw [if_neg hcond]
      simp only [Bool.false_eq_true, if_false]
      by_cases hstop : maxN ≤ 0 + 1
      · have hmax : maxN = 1 := by omega
        subst hmax
        rw [if_pos (by simp)]
        constructor
        · simp
        · simp [energyOf]
      · rw [if_neg (by simpa using hstop)]
        rw [analyzeLoop_started maxN rest _ rfl (by show 0 + 1 < maxN; omega)]
        constructor
        · simp
          omega
        · have hk : maxN = (maxN - 1) + 1 := by omega
          rw [hk, List.take_succ_cons]
          simp [energyOf]

end Wav2Mono

namespace Wav2Mono

/-- The `analyzed_count` never exceeds the cap: from any loop state still
below `maxN`, the loop ends at or below `maxN` (the increment is checked
right away by `if analyzed_count >= max_analyze_samples break`). -/
theorem analyzeLoop_count_le (maxN : ℕ) (pairs : List (ℚ × ℚ)) (st : AnalysisState)
    (h : st.analyzed_count < maxN) :
    (analyzeLoop maxN pairs st).analyzed_count ≤ maxN := by
  induction pairs generalizing st with
  | nil => simpa [analyzeLoop] using h.le
  | cons p rest ih =>
    obtain ⟨l, r⟩ := p
    obtain ⟨sum0, cnt0, strt, sil⟩ := st
    simp only at h
    rw [analyzeLoop]
    by_cases hcond : strt = false ∧ |l| ≤ silence_threshold ∧ |r| ≤ silence_threshold
    · rw [if_pos hcond]
      exact ih _ h
    · rw [if_neg hcond]
      cases strt
      · simp only [Bool.false_eq_true, if_false]
        by_cases hstop : maxN ≤ cnt0 + 1
        · rw [if_pos (by simpa using hstop)]
          simpa using h
        · rw [if_neg (by simpa using hstop)]
          exact ih _ (by simpa using (by omega : cnt0 + 1 < maxN))
      · simp only [if_true]
        by_cases hstop : maxN ≤ cnt0 + 1
        · rw [if_pos (by simpa using hstop)]
          simpa using h
        · rw [if_neg (by simpa using hstop)]
          exact ih _ (by simpa using (by omega : cnt0 + 1 < maxN))

/-- Claim C4 — during classification, the leading run of pairs with both
`|L|` and `|R|` at or below the silence threshold is skipped and does not
count toward `analyzed_count`; the first above-threshold pair is itself
analyzed (it is the head of `dropWhile silentPair`), and the skip is
permanent: after it, pairs are accumulated in stream order with no further
silence test, up to the 10-second cap (`take (10 * sample_rate)`). -/
theorem claim_c4_silence_skip (sr : ℕ) (pairs : List (ℚ × ℚ)) (h : 1 ≤ sr) :
    (runAnalysis sr pairs).analyzed_count
        = min (pairs.dropWhile silentPair).length (10 * sr) ∧
      (runAnalysis sr pairs).side_energy_sum
        = energyOf ((pairs.dropWhile silentPair).take (10 * sr)) :=
  analyzeLoop_fresh (10 * sr) pairs initState rfl rfl rfl (by omega)

/-- Witness for C4 at a concrete input: one silent pair, then a loud pair,
then a quiet pair — the loud pair starts the analysis and the quiet pair is
still analyzed. -/
theorem claim_c4_silence_skip_witness :
    (runAnalysis 1 [((0 : ℚ), (0 : ℚ)), (1, 0), (0, 0)]).analyzed_count
        = min ([((0 : ℚ), (0 : ℚ)), (1, 0), (0, 0)].dropWhile silentPair).length (10 * 1) ∧
      (runAnalysis 1 [((0 : ℚ), (0 : ℚ)), (1, 0), (0, 0)]).side_energy_sum
        = energyOf (([((0 : ℚ), (0 : ℚ)), (1, 0), (0, 0)].dropWhile silentPair).take (10 * 1)) :=
  claim_c4_silence_skip 1 [((0 : ℚ), (0 : ℚ)), (1, 0), (0, 0)] (by omega)

/-- Claim C7 — the loop analyzes at most `max_analyze_samples = 10 × sample_rate`
pairs: from any mid-loop state within the cap the final count stays within the
cap, and in particular the full run that feeds the verdict computation does
(for any positive sample rate). -/
theorem claim_c7_analysis_cap (sr : ℕ) (pairs : List (ℚ × ℚ)) (h : 1 ≤ sr) :
    (∀ st : AnalysisState, st.analyzed_count < 10 * sr →
        (analyzeLoop (10 * sr) pairs st).analyzed_count ≤ 10 * sr) ∧
      (runAnalysis sr pairs).analyzed_count ≤ 10 * sr :=
  ⟨fun st hst => analyzeLoop_count_le (10 * sr) pairs st hst,
    analyzeLoop_count_le (10 * sr) pairs initState (by simp [initState]; omega)⟩

/-- Witness for C7 at a concrete input. -/
theorem claim_c7_analysis_cap_witness :
    (runAnalysis 1 [((1 : ℚ), 0), (1, 0)]).analyzed_count ≤ 10 * 1 :=
  (claim_c7_analysis_cap 1 [((1 : ℚ), 0), (1, 0)] (by omega)).2

/-- An odd-length stream loses exactly its last element to the pairing loop:
`pairUp` of the stream and of the stream without its last sample agree. -/
theorem pairUp_dropLast : ∀ (xs : List ℚ), xs.length % 2 = 1 → pairUp xs = pairUp xs.dropLast
  | [], h => by simp at h
  | [x], _ => by simp [pairUp]
  | x :: y :: rest, h => by
    have hr : rest.length % 2 = 1 := by
      simp only [List.length_cons] at h
      omega
    have hne : rest ≠ [] := by
      intro e
      rw [e] at hr
      simp at hr
    obtain ⟨z, rest2, rfl⟩ := List.exists_cons_of_ne_nil hne
    have hrec := pairUp_dropLast (z :: rest2) hr
    have hdl : (x :: y :: z :: rest2).dropLast = x :: y :: (z :: rest2).dropLast := rfl
    rw [hdl]
    simp only [pairUp]
    rw [hrec]

/-- Claim C10 — on a stream with an odd number of decoded samples the final
unpaired sample is ignored entirely: the verdict equals the verdict on the
same stream with its last sample removed. -/
theorem claim_c10_odd_tail_ignored (sr : ℕ) (xs : List ℚ) (h : xs.length % 2 = 1) :
    classifySamples sr xs = classifySamples sr xs.dropLast := by
  unfold classifySamples
  rw [pairUp_dropLast xs h]

/-- Witness for C10 at a concrete odd-length input. -/
theorem claim_c10_odd_tail_ignored_witness :
    classifySamples 1 [(1 : ℚ), 1, 1] = classifySamples 1 ([(1 : ℚ), 1, 1].dropLast) :=
  claim_c10_odd_tail_ignored 1 [(1 : ℚ), 1, 1] (by simp)

end Wav2Mono

namespace Wav2Mono

/-- The threshold written `10^(-60/20)` in the spec is exactly `1/1000`. -/
theorem rpow_threshold : (10 : ℝ) ^ (-(60 : ℝ) / 20) = 1 / 1000 := by
  have h : (-(60 : ℝ) / 20) = ((-3 : ℤ) : ℝ) := by norm_num
  rw [h, Real.rpow_intCast]
  norm_num

/-- Claim C2 — the verdict is a pure function of the analyzed pairs: if
`analyzed_count = 0` the verdict is DualMono, and otherwise it is DualMono
exactly when `sqrt(side_energy_sum / analyzed_count) < 10^(-60/20)` (the
executable definition compares against the squared threshold; this theorem
restates it through `Real.sqrt` as the claim does). -/
theorem claim_c2_verdict_formula (sr : ℕ) (pairs : List (ℚ × ℚ)) :
    ((runAnalysis sr pairs).analyzed_count = 0 → classifyPairs sr pairs = .DualMono) ∧
      ((runAnalysis sr pairs).analyzed_count ≠ 0 →
        (classifyPairs sr pairs = .DualMono ↔
          Real.sqrt (((runAnalysis sr pairs).side_energy_sum : ℝ)
              / ((runAnalysis sr pairs).analyzed_count : ℝ))
            < (10 : ℝ) ^ (-(60 : ℝ) / 20))) := by
  constructor
  · intro h0
    simp [classifyPairs, h0]
  · intro hn
    rw [rpow_threshold, Real.sqrt_lt' (by norm_num : (0 : ℝ) < 1 / 1000)]
    have hcast :
        (((runAnalysis sr pairs).side_energy_sum : ℝ)
            / ((runAnalysis sr pairs).analyzed_count : ℝ) < (1 / 1000 : ℝ) ^ 2)
          ↔ ((runAnalysis sr pairs).side_energy_sum
            / ((runAnalysis sr pairs).analyzed_count : ℚ) < mono_diff_threshold ^ 2) := by
      rw [mono_diff_threshold]
      have h1 : (((runAnalysis sr pairs).side_energy_sum
              / ((runAnalysis sr pairs).analyzed_count : ℚ) : ℚ) : ℝ)
          = ((runAnalysis sr pairs).side_energy_sum : ℝ)
              / ((runAnalysis sr pairs).analyzed_count : ℝ) := by
        push_cast
        ring
      have h2 : ((1 : ℝ) / 1000) ^ 2 = (((1 / 1000 : ℚ) ^ 2 : ℚ) : ℝ) := by norm_num
      rw [← h1, h2, Rat.cast_lt]
    rw [hcast]
    by_cases hlt : (runAnalysis sr pairs).side_energy_sum
        / ((runAnalysis sr pairs).analyzed_count : ℚ) < mono_diff_threshold ^ 2
    · simp [classifyPairs, hn, hlt]
    · simp [classifyPairs, hn, hlt]

/-- Witness for C2 at a concrete input (the empty stream analyzes no pair and
is classified DualMono through the first conjunct). -/
theorem claim_c2_verdict_formula_witness :
    classifyPairs 1 ([] : List (ℚ × ℚ)) = .DualMono :=
  (claim_c2_verdict_formula 1 []).1 (by decide)

/-- Claim C8 — the sample normalizer: Integer 16-bit divides by 32767,
Integer 24-bit by 8388607, Integer 32-bit by the `i32` maximum, Float 32-bit
passes the value through unchanged, and a decode failure on an individual
sample becomes `0.0` (in both the integer and the float pipelines) instead
of aborting the analysis. -/
theorem claim_c8_normalizer (v : ℤ) (q : ℚ) (format : SampleFormat) (bits : ℕ) :
    to_f32 .Int 16 (some v) = (v : ℚ) / 32767 ∧
      to_f32 .Int 24 (some v) = (v : ℚ) / 8388607 ∧
      to_f32 .Int 32 (some v) = (v : ℚ) / 2147483647 ∧
      float_to_f32 (some q) = q ∧
      to_f32 format bits none = 0 ∧
      float_to_f32 none = 0 := by
  refine ⟨rfl, rfl, rfl, rfl, ?_, rfl⟩
  simp only [to_f32]
  split <;> simp

end Wav2Mono

namespace Wav2Mono

/-- 8-bit integer samples hit the catch-all arm of `to_f32`: every sample,
whatever its value, normalizes to `0.0`. -/
theorem to_f32_int8 (s : Option ℤ) : to_f32 .Int 8 s = 0 := rfl

/-- While the loop has not started, a run of silent pairs only counts into
`silence_samples`; a stream that is silent throughout never starts and
analyzes nothing. -/
theorem analyzeLoop_all_silent (maxN : ℕ) (pairs : List (ℚ × ℚ)) (st : AnalysisState)
    (hs : st.is_started = false) (hall : ∀ p ∈ pairs, silentPair p = true) :
    analyzeLoop maxN pairs st
      = { st with silence_samples := st.silence_samples + pairs.length } := by
  induction pairs generalizing st with
  | nil => simp [analyzeLoop]
  | cons p rest ih =>
    obtain ⟨l, r⟩ := p
    have hp := of_decide_eq_true (hall (l, r) (by simp))
    rw [analyzeLoop_silent_cons maxN l r rest st hs hp.1 hp.2]
    have hrec := ih { st with silence_samples := st.silence_samples + 1 } hs
      (fun q hq => hall q (by simp [hq]))
    rw [hrec]
    obtain ⟨sum0, cnt0, strt, sil⟩ := st
    simp [AnalysisState.mk.injEq]
    omega

/-- Both components of any pair produced by `pairUp` come from the flat
stream. -/
theorem pairUp_mem : ∀ (xs : List ℚ) (p : ℚ × ℚ), p ∈ pairUp xs → p.1 ∈ xs ∧ p.2 ∈ xs
  | [], p, hp => by simp [pairUp] at hp
  | [x], p, hp => by simp [pairUp] at hp
  | l :: r :: rest, p, hp => by
    simp only [pairUp, List.mem_cons] at hp
    rcases hp with h | h
    · subst h
      simp
    · have := pairUp_mem rest p h
      exact ⟨by simp [this.1], by simp [this.2]⟩

/-- A stream whose normalized samples are all `0.0` is silence throughout:
nothing is analyzed and the verdict is DualMono. -/
theorem classifySamples_all_zero (sr : ℕ) (xs : List ℚ) (hz : ∀ x ∈ xs, x = 0) :
    classifySamples sr xs = .DualMono := by
  have hall : ∀ p ∈ pairUp xs, silentPair p = true := by
    intro p hp
    have hm := pairUp_mem xs p hp
    have h1 : p.1 = 0 := hz _ hm.1
    have h2 : p.2 = 0 := hz _ hm.2
    simp only [silentPair, h1, h2, silence_threshold, abs_zero]
    norm_num
  unfold classifySamples classifyPairs runAnalysis
  rw [analyzeLoop_all_silent _ _ initState rfl hall]
  simp [initState]

/-- Counterexample to claim C1 as stated: a 2-channel (Integer, 8-bit) asset
with clearly loud, clearly different channels does NOT produce the
unsupported-format error — it is silently classified DualMono (every 8-bit
sample normalizes to `0.0`), and the pipeline then creates an extracted mono
output for it, so the asset is altered. -/
theorem claim_c1_counterexample :
    is_dual_mono ⟨2, 48000, 8, .Int⟩ [some 12000, some (-12000)] [] = .ok .DualMono ∧
      (process_wav_file ⟨false, false⟩
          ⟨⟨2, 48000, 8, .Int⟩, [some 12000, some (-12000)], []⟩).2
        = ⟨true, some (.finalized ⟨1, 48000, 8, .Int⟩ (.ints [12000])), false, false⟩ := by
  constructor <;>
    norm_num [is_dual_mono, process_wav_file, to_f32, classifySamples, classifyPairs,
      runAnalysis, analyzeLoop, pairUp, initState, silence_threshold, mono_diff_threshold,
      abs_le, extractView, extract_left_channel, untouchedFs]

/-- Claim C1 amended — for a 2-channel asset the unsupported-format error is
raised exactly when the sample format is Float with bit depth ≠ 32; in that
case the pipeline stops with the error and the asset is untouched.  Integer
formats of any bit depth never error: in particular every (Integer, 8-bit)
2-channel asset is classified DualMono, because all of its samples normalize
to `0.0`. -/
theorem claim_c1_amended (env : IoEnv) (a : WavAsset) (h2 : a.spec.channels = 2) :
    ((∃ e, is_dual_mono a.spec a.ints a.floats = .error e) ↔
        (a.spec.sample_format = .Float ∧ a.spec.bits_per_sample ≠ 32)) ∧
      (a.spec.sample_format = .Float → a.spec.bits_per_sample ≠ 32 →
        process_wav_file env a =
          (.error "Unsupported sample format for dual-mono check", untouchedFs)) ∧
      (a.spec.sample_format = .Int → a.spec.bits_per_sample = 8 →
        is_dual_mono a.spec a.ints a.floats = .ok .DualMono) := by
  obtain ⟨⟨ch, sr, bits, fmt⟩, ints, floats⟩ := a
  have hch : ch = 2 := h2
  subst hch
  have hok : ∀ (b : ℕ), is_dual_mono ⟨2, sr, b, .Int⟩ ints floats
      = .ok (classifySamples sr (ints.map (to_f32 .Int b))) := by
    intro b
    simp [is_dual_mono]
  have herr : ∀ (b : ℕ), b ≠ 32 → is_dual_mono ⟨2, sr, b, .Float⟩ ints floats
      = .error "Unsupported sample format for dual-mono check" := by
    intro b hb
    unfold is_dual_mono
    simp only [if_neg (by simp : ¬ (⟨2, sr, b, .Float⟩ : WavSpec).channels ≠ 2)]
    split
    · rename_i heq
      exact absurd (by injection heq) (by simp [hb])
    · rename_i heq
      injection heq
    · rfl
  refine ⟨?_, ?_, ?_⟩
  · cases fmt
    · rw [show (⟨⟨2, sr, bits, .Int⟩, ints, floats⟩ : WavAsset).spec = ⟨2, sr, bits, .Int⟩
        from rfl, hok bits]
      simp
    · by_cases hb : bits = 32
      · subst hb
        simp [is_dual_mono]
      · rw [show (⟨⟨2, sr, bits, .Float⟩, ints, floats⟩ : WavAsset).spec = ⟨2, sr, bits, .Float⟩
          from rfl, herr bits hb]
        simp [hb]
  · intro hf hb
    have hf' : fmt = .Float := hf
    subst hf'
    have hb' : bits ≠ 32 := hb
    simp [process_wav_file, herr bits hb']
  · intro hf hb
    have hf' : fmt = .Int := hf
    subst hf'
    have hb' : bits = 8 := hb
    subst hb'
    rw [show (⟨⟨2, sr, 8, .Int⟩, ints, floats⟩ : WavAsset).spec = ⟨2, sr, 8, .Int⟩
      from rfl, hok 8]
    congr 1
    apply classifySamples_all_zero
    intro x hx
    simp only [List.mem_map] at hx
    obtain ⟨s, _, rfl⟩ := hx
    exact to_f32_int8 s

end Wav2Mono

namespace Wav2Mono

/-- Witness for the amended C1 at a concrete input: a 2-channel (Float,
16-bit) asset errors out with the asset untouched. -/
theorem claim_c1_amended_witness :
    process_wav_file ⟨false, false⟩ ⟨⟨2, 44100, 16, .Float⟩, [], [some 1]⟩ =
      (.error "Unsupported sample format for dual-mono check", untouchedFs) :=
  (claim_c1_amended ⟨false, false⟩ ⟨⟨2, 44100, 16, .Float⟩, [], [some 1]⟩ rfl).2.1 rfl
    (by decide)

end Wav2Mono

namespace Wav2Mono

/-- Claim C5 — extraction is frame-verbatim: on a stream made of complete
`c`-sample frames followed by at most an incomplete frame (all samples decoding
successfully), the extractor emits exactly the first sample of every complete
frame, in order and unchanged (the remaining `c − 1` samples of each frame
are discarded), plus the channel-0 sample of the trailing incomplete frame when
one was available — and it reports success, not an error, on the mid-frame
stream end.  The sample type `α` is arbitrary, so no value conversion can
occur (for 16-bit integer assets instantiate `α := ℤ`). -/
theorem claim_c5_extraction {α : Type} (c : ℕ) (frames : List (List α)) (tail0 : List α)
    (hc : 0 < c) (hf : ∀ f ∈ frames, f.length = c) (ht : tail0.length < c) :
    extract_left_channel c ((frames.flatten ++ tail0).map some)
      = (frames.filterMap List.head? ++ tail0.head?.toList, true) := by
  induction frames with
  | nil =>
    simp only [List.flatten_nil, List.nil_append, List.filterMap_nil]
    cases tail0 with
    | nil => simp [extract_left_channel]
    | cons x t =>
      simp only [List.map_cons, extract_left_channel]
      have hdrop : (t.map some).drop (c - 1) = [] := by
        apply List.drop_eq_nil_of_le
        simp only [List.length_map]
        simp only [List.length_cons] at ht
        omega
      rw [hdrop]
      simp [extract_left_channel]
  | cons f fs ih =>
    have hlen : f.length = c := hf f (by simp)
    cases f with
    | nil =>
      rw [← hlen] at hc
      simp at hc
    | cons h t =>
      simp only [List.flatten_cons, List.cons_append, List.append_assoc, List.map_cons,
        List.map_append, extract_left_channel]
      have hlt : (t.map some).length = c - 1 := by
        simp only [List.length_map]
        simp only [List.length_cons] at hlen
        omega
      rw [show c - 1 = (t.map some).length from hlt.symm, List.drop_left]
      rw [← List.map_append]
      rw [ih (fun g hg => hf g (by simp [hg]))]
      simp

end Wav2Mono

namespace Wav2Mono

/-- Witness for C5 at a concrete input: two complete stereo frames and a
trailing half frame over `ℤ` (16-bit style integer samples). -/
theorem claim_c5_extraction_witness :
    extract_left_channel 2 ((([[10, 20], [30, 40]] : List (List ℤ)).flatten ++ [50]).map some)
      = (([[10, 20], [30, 40]] : List (List ℤ)).filterMap List.head?
          ++ ([(50 : ℤ)].head?.toList), true) :=
  claim_c5_extraction 2 [[10, 20], [30, 40]] [50] (by omega) (by decide) (by decide)

end Wav2Mono

namespace Wav2Mono

/-- Claim C9 — whenever the pipeline leaves a finalized extracted output at
`mono/<name>`, that output's spec is the input spec with `channels`
rewritten to 1 and `sample_rate`, `bits_per_sample` and `sample_format`
unchanged. -/
theorem claim_c9_output_spec (env : IoEnv) (a : WavAsset) (s : WavSpec) (d : MonoData)
    (h : (process_wav_file env a).2.mono_out = some (.finalized s d)) :
    s.channels = 1 ∧ s.sample_rate = a.spec.sample_rate ∧
      s.bits_per_sample = a.spec.bits_per_sample ∧
      s.sample_format = a.spec.sample_format := by
  unfold process_wav_file at h
  split at h
  · simp at h
  · split at h
    · simp [untouchedFs] at h
    · simp at h
    · split at h
      · simp [untouchedFs] at h
      · split at h
        · simp [untouchedFs] at h
        · split at h
          · simp at h
          · split at h
            · simp at h
            · simp only [Option.some.injEq, MonoContent.finalized.injEq] at h
              obtain ⟨hs, hd⟩ := h
              subst hs
              simp
  · simp at h

/-- Witness for C9 at a concrete run of the pipeline. -/
theorem claim_c9_output_spec_witness :
    (⟨1, 1, 16, .Int⟩ : WavSpec).channels = 1 ∧
      (⟨1, 1, 16, .Int⟩ : WavSpec).sample_rate = asset16.spec.sample_rate ∧
      (⟨1, 1, 16, .Int⟩ : WavSpec).bits_per_sample = asset16.spec.bits_per_sample ∧
      (⟨1, 1, 16, .Int⟩ : WavSpec).sample_format = asset16.spec.sample_format :=
  claim_c9_output_spec ⟨false, false⟩ asset16 ⟨1, 1, 16, .Int⟩ (.ints [5]) (by
    norm_num [process_wav_file, asset16, is_dual_mono, to_f32, classifySamples, classifyPairs,
      runAnalysis, analyzeLoop, pairUp, initState, silence_threshold, mono_diff_threshold,
      abs_le, extractView, extract_left_channel, untouchedFs])

/-- Counterexample to claim C3 as stated: with `writer.finalize()` failing
(e.g. disk full) on a dual-mono asset, the error does propagate as fatal,
but an incompletely written (never finalized) output file IS left in place at
`mono/<name>` — the code has no cleanup path. -/
theorem claim_c3_counterexample :
    (process_wav_file ⟨false, true⟩ asset16).1 = .error "finalize failed" ∧
      (process_wav_file ⟨false, true⟩ asset16).2.mono_out
        = some (.unfinalized ⟨1, 1, 16, .Int⟩ (.ints [5])) := by
  constructor <;>
    norm_num [process_wav_file, asset16, is_dual_mono, to_f32, classifySamples, classifyPairs,
      runAnalysis, analyzeLoop, pairUp, initState, silence_threshold, mono_diff_threshold,
      abs_le, extractView, extract_left_channel, untouchedFs]

/-- Claim C3 amended — if output container creation or finalization fails
during the DualMono extraction path, the error propagates as fatal for the
asset and the original file is left untouched; a creation failure leaves no
output at all, but a finalization failure leaves the incompletely written
(unfinalized) output in place at `mono/<name>` — the code performs no
cleanup. -/
theorem claim_c3_amended (env : IoEnv) (a : WavAsset) (d : MonoData)
    (h2 : a.spec.channels = 2)
    (hdm : is_dual_mono a.spec a.ints a.floats = .ok .DualMono)
    (hx : extractView a = some (d, true)) :
    (env.writer_create_fails = true →
        process_wav_file env a = (.error "writer create failed", untouchedFs)) ∧
      (env.writer_create_fails = false → env.finalize_fails = true →
        process_wav_file env a =
          (.error "finalize failed",
            ⟨true, some (.unfinalized { a.spec with channels := 1 } d), false, false⟩)) := by
  constructor
  · intro hcf
    unfold process_wav_file
    simp [h2, hdm, hcf]
  · intro hcf hff
    unfold process_wav_file
    simp [h2, hdm, hx, hcf, hff]

/-- Witness for the amended C3 at a concrete run with a failing finalize. -/
theorem claim_c3_amended_witness :
    process_wav_file ⟨false, true⟩ asset16 =
      (.error "finalize failed",
        ⟨true, some (.unfinalized { asset16.spec with channels := 1 } (.ints [5])),
          false, false⟩) :=
  (claim_c3_amended ⟨false, true⟩ asset16 (.ints [5]) rfl
    (by
      norm_num [asset16, is_dual_mono, to_f32, classifySamples, classifyPairs, runAnalysis,
        analyzeLoop, pairUp, initState, silence_threshold, mono_diff_threshold, abs_le])
    (by simp [extractView, asset16, extract_left_channel])).2 rfl rfl

/-- Counterexample to claim C6 as stated: on a successful DualMono run the
original asset's bytes are NOT replaced — the DualMono branch of
`process_wav_file` contains no `fs::remove_file`, so the input file survives
intact next to the new `mono/<name>` output. -/
theorem claim_c6_counterexample :
    (process_wav_file ⟨false, false⟩ asset16).1
        = .ok "dual mono: extracted left channel to mono" ∧
      (process_wav_file ⟨false, false⟩ asset16).2.original_intact = true := by
  constructor <;>
    norm_num [process_wav_file, asset16, is_dual_mono, to_f32, classifySamples, classifyPairs,
      runAnalysis, analyzeLoop, pairUp, initState, silence_threshold, mono_diff_threshold,
      abs_le, extractView, extract_left_channel, untouchedFs]

/-- Claim C6 amended — branch-by-branch disposition with no I/O faults: on a
DualMono verdict a new 1-channel extracted file is created at `mono/<name>`
while the original file is left in place (not removed); in every other branch
(1 channel, TrueStereo, 3+ channels) the original bytes are copied unchanged
to the respective directory and the original file is removed (relocation). -/
theorem claim_c6_amended (env : IoEnv) (a : WavAsset)
    (hcf : env.writer_create_fails = false) (hff : env.finalize_fails = false) :
    (a.spec.channels = 1 →
        (process_wav_file env a).2 = ⟨false, some .copyOfOriginal, false, false⟩) ∧
      (a.spec.channels = 2 →
        is_dual_mono a.spec a.ints a.floats = .ok .TrueStereo →
        (process_wav_file env a).2 = ⟨false, none, true, false⟩) ∧
      (∀ d : MonoData, a.spec.channels = 2 →
        is_dual_mono a.spec a.ints a.floats = .ok .DualMono →
        extractView a = some (d, true) →
        (process_wav_file env a).2
          = ⟨true, some (.finalized { a.spec with channels := 1 } d), false, false⟩) ∧
      (3 ≤ a.spec.channels →
        (process_wav_file env a).2 = ⟨false, none, false, true⟩) := by
  refine ⟨?_, ?_, ?_, ?_⟩
  · intro h1
    unfold process_wav_file
    simp [h1]
  · intro h2 hts
    unfold process_wav_file
    simp [h2, hts]
  · intro d h2 hdm hx
    unfold process_wav_file
    simp [h2, hdm, hx, hcf, hff]
  · intro h3
    obtain ⟨n, hn⟩ : ∃ n, a.spec.channels = n + 3 := ⟨a.spec.channels - 3, by omega⟩
    unfold process_wav_file
    rw [hn]
    rfl

/-- Witness for the amended C6: a 1-channel asset is relocated to `mono/`
as a verbatim copy, with the original removed. -/
theorem claim_c6_amended_witness :
    (process_wav_file ⟨false, false⟩ ⟨⟨1, 44100, 16, .Int⟩, [some 3], []⟩).2
      = ⟨false, some .copyOfOriginal, false, false⟩ :=
  (claim_c6_amended ⟨false, false⟩ ⟨⟨1, 44100, 16, .Int⟩, [some 3], []⟩ rfl rfl).1 rfl

end Wav2Mono
